import Mathlib

/- Shallow embedding of the `trace` Go package (src/trace.go): a two-level
(trace/info) grouped logging facility with a single dispatch worker that
serializes all writes and state mutations through a FIFO command queue.

Modelling conventions:
* `io.Writer` sinks are identified by natural-number handles; the totally
  ordered sequence of writes the worker performs is recorded as a list of
  (sink, line) pairs, so a particular sink's contents are the projection
  of that list onto its handle.
* A Go panic (out-of-range slice index, duplicate group registration) is
  modelled by `Option`: `none` is a panic, `some s` a normal return.
* `time.Time` values are modelled by their broken-down UTC components,
  and the stdlib rendering under layout "2006-1-2 15:04:05.000000" by
  `formatTime` below (4-digit year, unpadded month and day, 2-digit
  zero-padded hour/minute/second, exactly 6 fractional digits).
* Argument formatting (`fmt.Sprint` / `fmt.Sprintf`) is an external
  collaborator per the spec; `goSprint` follows Go's documented Sprint
  rule (spaces between operands when neither is a string) and
  `goSprintf` models the printf verbs the package exercises.
* Group indices are `Int` (Go `int`), so that negative indices and the
  resulting slice-bounds panics are representable.
-/

namespace TraceSpec

/-- Broken-down UTC time carried by an emit command (models `time.Time`
after `.UTC()`). -/
structure GoTime where
  year : Nat
  month : Nat
  day : Nat
  hour : Nat
  minute : Nat
  second : Nat
  micro : Nat
deriving DecidableEq, Repr

/-- Decimal rendering of a natural number, fuel-based so that it reduces
by kernel computation. With fuel greater than `n` it renders the full
decimal expansion of `n` with no leading zeros. -/
def natStrAux : Nat → Nat → String
  | 0, _ => ""
  | fuel + 1, n =>
    if n < 10 then String.mk [Nat.digitChar n]
    else natStrAux fuel (n / 10) ++ String.mk [Nat.digitChar (n % 10)]

/-- Decimal rendering of a natural number (models Go integer printing). -/
def natStr (n : Nat) : String := natStrAux (n + 1) n

/-- Left-pad a string with zeros up to width `w` (models a fixed-width
layout field). -/
def zeroPad (w : Nat) (s : String) : String :=
  String.mk (List.replicate (w - s.length) '0') ++ s

/-- The Go layout string "2006-1-2 15:04:05.000000" applied to a time:
4-digit year, unpadded month, unpadded day, 2-digit hour, minute and
second, 6 fractional digits. -/
def formatTime (t : GoTime) : String :=
  zeroPad 4 (natStr t.year) ++ "-" ++ natStr t.month ++ "-" ++ natStr t.day ++ " " ++
  zeroPad 2 (natStr t.hour) ++ ":" ++ zeroPad 2 (natStr t.minute) ++ ":" ++
  zeroPad 2 (natStr t.second) ++ "." ++ zeroPad 6 (natStr t.micro)

/-- Decimal digit test for a character. -/
def isDigitChar (c : Char) : Bool := decide ('0' ≤ c) && decide (c ≤ '9')

/-- All characters of the string are decimal digits. -/
def isDigitStr (s : String) : Bool := s.data.all isDigitChar

/-- One logging group: its name, its output sink handle and its enabled
flag (embeds `groupData` from src/trace.go). -/
structure GroupData where
  name : String
  output : Nat
  enabled : Bool
deriving DecidableEq, Repr

/-- The worker-owned mutable state: the group registry (`groups`), the
global trace gate (`traceEnabled`), and the totally ordered record of
(sink, line) writes performed so far. -/
structure TraceState where
  groups : List GroupData
  traceEnabled : Bool
  writes : List (Nat × String)
deriving DecidableEq, Repr

/-- Go slice indexing `groups[i]` with an `int` index: `none` exactly when
the access panics (negative index or index ≥ length). -/
def listGetI (l : List GroupData) (i : Int) : Option GroupData :=
  if 0 ≤ i then l.get? i.toNat else none

/-- Sink handle for the process standard output stream. -/
def stdoutSink : Nat := 0

/-- State after `init`/`reset`: only the default group (empty name, stdout,
enabled) and the trace level disabled. -/
def initState : TraceState := ⟨[⟨"", stdoutSink, true⟩], false, []⟩

/-- Embeds `printLog` from src/trace.go: format the timestamp, then write
`"<ts> <msg>\n"` to the default group's sink when `group` is the default
index 0, and `"<ts> [<name>] <msg>\n"` to the group's sink otherwise.
`none` models the slice-index panic on an out-of-range group. -/
def printLog (s : TraceState) (group : Int) (t : GoTime) (msg : String) :
    Option TraceState :=
  let strTime := formatTime t
  if group = 0 then
    match listGetI s.groups 0 with
    | none => none
    | some gd =>
      some ⟨s.groups, s.traceEnabled,
            s.writes ++ [(gd.output, strTime ++ " " ++ msg ++ "\n")]⟩
  else
    match listGetI s.groups group with
    | none => none
    | some gd =>
      some ⟨s.groups, s.traceEnabled,
            s.writes ++ [(gd.output, strTime ++ " [" ++ gd.name ++ "] " ++ msg ++ "\n")]⟩

/-- The tagged command union travelling over the command queue (embeds the
`logApi` implementations `traceMsg`, `infoMsg`, `cmdEnabletrace`,
`cmdEnableGroup` from src/trace.go). -/
inductive Command where
  | emitTrace (group : Int) (t : GoTime) (msg : String)
  | emitInfo (group : Int) (t : GoTime) (msg : String)
  | setTraceEnabled (b : Bool)
  | setGroupEnabled (group : Int) (b : Bool)
deriving DecidableEq, Repr

/-- Embeds the four `do()` methods executed by the dispatch worker. The
`emitTrace` case reproduces Go's short-circuit `traceEnabled &&
groups[m.group].enabled`: when the global gate is off the registry is
never indexed. `none` models a panic inside `do()`. -/
def Command.exec : Command → TraceState → Option TraceState
  | Command.emitTrace g t msg, s =>
    if s.traceEnabled then
      match listGetI s.groups g with
      | none => none
      | some gd => if gd.enabled then printLog s g t msg else some s
    else some s
  | Command.emitInfo g t msg, s =>
    match listGetI s.groups g with
    | none => none
    | some gd => if gd.enabled then printLog s g t msg else some s
  | Command.setTraceEnabled b, s => some ⟨s.groups, b, s.writes⟩
  | Command.setGroupEnabled g b, s =>
    match listGetI s.groups g with
    | none => none
    | some gd =>
      some ⟨s.groups.set g.toNat ⟨gd.name, gd.output, b⟩, s.traceEnabled, s.writes⟩

/-- The single line `printLog` produces for group `g` (descriptor used in
theorem statements). -/
def formatLine (gd : GroupData) (g : Int) (t : GoTime) (msg : String) : String :=
  if g = 0 then formatTime t ++ " " ++ msg ++ "\n"
  else formatTime t ++ " [" ++ gd.name ++ "] " ++ msg ++ "\n"

/-- The state after a successful `printLog`: identical registry and gate,
one more write on the group's sink. -/
def writeState (s : TraceState) (gd : GroupData) (g : Int) (t : GoTime)
    (msg : String) : TraceState :=
  ⟨s.groups, s.traceEnabled, s.writes ++ [(gd.output, formatLine gd g t msg)]⟩

/-- Values passed to the variadic log calls (models the `interface{}`
arguments the package hands to the fmt collaborator: a string or an
integer operand). -/
inductive GoValue where
  | str (s : String)
  | int (n : Int)
deriving DecidableEq, Repr

/-- Decimal rendering of a Go `int`. -/
def intStr (n : Int) : String :=
  if n < 0 then "-" ++ natStr (-n).toNat else natStr n.toNat

/-- An operand's default string representation (its `%v` form). -/
def GoValue.render : GoValue → String
  | GoValue.str s => s
  | GoValue.int n => intStr n

/-- Whether the operand is a string (drives Sprint's spacing rule). -/
def GoValue.isStr : GoValue → Bool
  | GoValue.str _ => true
  | GoValue.int _ => false

/-- Models `fmt.Sprint`: operands rendered in their default formats and
concatenated, with a space added between two operands when neither is a
string. -/
def goSprint : List GoValue → String
  | [] => ""
  | [v] => v.render
  | v :: w :: rest =>
    v.render ++ (if v.isStr || w.isStr then "" else " ") ++ goSprint (w :: rest)

/-- Models `fmt.Sprintf` over the template's characters for the verbs the
package's callers use (%d, %s, %v, %%); other characters pass through. -/
def goSprintfAux : List Char → List GoValue → String
  | [], _ => ""
  | '%' :: 'd' :: rest, GoValue.int n :: args => intStr n ++ goSprintfAux rest args
  | '%' :: 's' :: rest, GoValue.str s :: args => s ++ goSprintfAux rest args
  | '%' :: 'v' :: rest, v :: args => v.render ++ goSprintfAux rest args
  | '%' :: '%' :: rest, args => "%" ++ goSprintfAux rest args
  | c :: rest, args => String.mk [c] ++ goSprintfAux rest args

/-- Models `fmt.Sprintf` on a template string. -/
def goSprintf (format : String) (a : List GoValue) : String :=
  goSprintfAux format.data a

/-- Embeds the message-text computation in `log` (src/trace.go): printf
substitution when a non-empty template is supplied, plain Sprint
concatenation otherwise. -/
def mkMsg (format : String) (a : List GoValue) : String :=
  if format.length > 0 then goSprintf format a else goSprint a

/-- The two severity levels (embeds `level` from src/trace.go). -/
inductive Level where
  | trace
  | info
deriving DecidableEq, Repr

/-- The command `log` constructs for a level (the if/else chain on `l` in
src/trace.go). -/
def mkCmd (group : Int) (l : Level) (t : GoTime) (m : String) : Command :=
  match l with
  | Level.trace => Command.emitTrace group t m
  | Level.info => Command.emitInfo group t m

/-- Whole-system state seen by producers: the worker-owned `TraceState`
plus the FIFO command queue (`logstream`) contents, oldest first. -/
structure SysState where
  st : TraceState
  queue : List Command
deriving DecidableEq, Repr

/-- Embeds `log` (src/trace.go): capture the time, build the message text
eagerly, construct the command for the level and enqueue it. Producers
touch only the queue. -/
def log (sys : SysState) (t : GoTime) (group : Int) (l : Level)
    (format : String) (a : List GoValue) : SysState :=
  ⟨sys.st, sys.queue ++ [mkCmd group l t (mkMsg format a)]⟩

/-- Embeds `Info`: default group, info level, no template. -/
def Info (sys : SysState) (t : GoTime) (a : List GoValue) : SysState :=
  log sys t 0 Level.info "" a

/-- Embeds `Infof`: default group, info level, template. -/
def Infof (sys : SysState) (t : GoTime) (format : String) (a : List GoValue) :
    SysState :=
  log sys t 0 Level.info format a

/-- Embeds `Infog`: given group, info level, no template. -/
def Infog (sys : SysState) (t : GoTime) (group : Int) (a : List GoValue) :
    SysState :=
  log sys t group Level.info "" a

/-- Embeds `Infogf`: given group, info level, template. -/
def Infogf (sys : SysState) (t : GoTime) (group : Int) (format : String)
    (a : List GoValue) : SysState :=
  log sys t group Level.info format a

/-- Embeds `Trace`: default group, trace level, no template. -/
def Trace (sys : SysState) (t : GoTime) (a : List GoValue) : SysState :=
  log sys t 0 Level.trace "" a

/-- Embeds `Tracef`: default group, trace level, template. -/
def Tracef (sys : SysState) (t : GoTime) (format : String) (a : List GoValue) :
    SysState :=
  log sys t 0 Level.trace format a

/-- Embeds `Traceg`: given group, trace level, no template. -/
def Traceg (sys : SysState) (t : GoTime) (group : Int) (a : List GoValue) :
    SysState :=
  log sys t group Level.trace "" a

/-- Embeds `Tracegf`: given group, trace level, template. -/
def Tracegf (sys : SysState) (t : GoTime) (group : Int) (format : String)
    (a : List GoValue) : SysState :=
  log sys t group Level.trace format a

/-- Embeds `EnableGroup`: enqueue a `cmdEnableGroup` command; no direct
state mutation. -/
def EnableGroup (sys : SysState) (group : Int) (b : Bool) : SysState :=
  ⟨sys.st, sys.queue ++ [Command.setGroupEnabled group b]⟩

/-- Embeds `EnableTrace`: enqueue a `cmdEnabletrace` command; no direct
state mutation. -/
def EnableTrace (sys : SysState) (b : Bool) : SysState :=
  ⟨sys.st, sys.queue ++ [Command.setTraceEnabled b]⟩

/-- Embeds `RegisterGroup` (src/trace.go) on the worker-owned state: panic
(`none`) when the name duplicates any registered group's name; otherwise
append (re-creating the default group first if the registry is somehow
empty) and return the new group's index. The registry is mutated directly,
not through the queue. -/
def RegisterGroup (s : TraceState) (name : String) (output : Nat) (b : Bool) :
    Option (TraceState × Nat) :=
  if s.groups.any (fun g => name == g.name) then none
  else
    let gs1 := if s.groups.length = 0 then s.groups ++ [⟨"", stdoutSink, true⟩]
               else s.groups
    let gs2 := gs1 ++ [⟨name, output, b⟩]
    some (⟨gs2, s.traceEnabled, s.writes⟩, gs2.length - 1)

/-- `RegisterGroup` as a producer call-site: it changes the registry part
of the system state and leaves the queue untouched. -/
def RegisterGroupSys (sys : SysState) (name : String) (output : Nat)
    (b : Bool) : Option (SysState × Nat) :=
  match RegisterGroup sys.st name output b with
  | none => none
  | some (st1, id) => some (⟨st1, sys.queue⟩, id)

/-- Embeds `SetDefaultOutput` (src/trace.go): replace slot 0 with a fresh
default group carrying the new sink and the previous enabled flag (or
create it when the registry is empty). Direct mutation, no queueing. -/
def SetDefaultOutput (s : TraceState) (output : Nat) : TraceState :=
  match s.groups with
  | [] => ⟨[⟨"", output, true⟩], s.traceEnabled, s.writes⟩
  | g0 :: rest => ⟨⟨"", output, g0.enabled⟩ :: rest, s.traceEnabled, s.writes⟩

/-- `SetDefaultOutput` as a producer call-site. -/
def SetDefaultOutputSys (sys : SysState) (output : Nat) : SysState :=
  ⟨SetDefaultOutput sys.st output, sys.queue⟩

/-- Embeds `logRoutine`: execute the queued commands in FIFO arrival
order, one at a time; `none` when some command's `do()` panics. -/
def runWorker : List Command → TraceState → Option TraceState
  | [], s => some s
  | c :: cs, s =>
    match Command.exec c s with
    | none => none
    | some s1 => runWorker cs s1

/-- Embeds `Done`: close the queue and wait for the worker to execute
every already-enqueued command; afterwards the queue is empty. -/
def Done (sys : SysState) : Option SysState :=
  match runWorker sys.queue sys.st with
  | none => none
  | some st1 => some ⟨st1, []⟩

/-- One producer-side log call: its level, captured time, template and
arguments. -/
structure LogCall where
  lvl : Level
  t : GoTime
  fmt : String
  args : List GoValue
deriving DecidableEq, Repr

/-- The command a call produces for group `g`. -/
def LogCall.toCmd (g : Int) (c : LogCall) : Command :=
  mkCmd g c.lvl c.t (mkMsg c.fmt c.args)

/-- Issue a sequence of log calls to group `g`, in order. -/
def issueCalls (g : Int) : List LogCall → SysState → SysState
  | [], sys => sys
  | c :: cs, sys => issueCalls g cs (log sys c.t g c.lvl c.fmt c.args)

/-- The lines a given sink has received, oldest first: the projection of
the total write order onto that sink handle. -/
def sinkLines (s : TraceState) (sink : Nat) : List String :=
  (s.writes.filter (fun p => p.fst == sink)).map Prod.snd

/-! Helper lemmas. -/

theorem printLog_eq (s : TraceState) (g : Int) (gd : GroupData) (t : GoTime)
    (msg : String) (hg : listGetI s.groups g = some gd) :
    printLog s g t msg = some (writeState s gd g t msg) := by
  by_cases h0 : g = 0
  · subst h0
    simp [printLog, hg, writeState, formatLine]
  · simp [printLog, hg, writeState, formatLine, h0]

theorem runWorker_append (q1 q2 : List Command) (s : TraceState) :
    runWorker (q1 ++ q2) s =
      match runWorker q1 s with
      | none => none
      | some s1 => runWorker q2 s1 := by
  induction q1 generalizing s with
  | nil => simp [runWorker]
  | cons c cs ih =>
    simp only [List.cons_append, runWorker]
    cases Command.exec c s with
    | none => rfl
    | some s1 => exact ih s1

theorem listGetI_none (l : List GroupData) (g : Int)
    (hbad : g < 0 ∨ (l.length : Int) ≤ g) : listGetI l g = none := by
  rcases hbad with h | h
  · simp [listGetI, Int.not_le.mpr h]
  · have h0 : 0 ≤ g := le_trans (Int.ofNat_nonneg l.length) h
    have hlen : l.length ≤ g.toNat := by omega
    simp only [listGetI, if_pos h0]
    exact List.get?_len_le hlen

theorem natStrAux_fuel (n : Nat) : ∀ f1 f2, n < f1 → n < f2 →
    natStrAux f1 n = natStrAux f2 n := by
  induction n using Nat.strong_induction_on with
  | _ n ih =>
    intro f1 f2 h1 h2
    cases f1 with
    | zero => omega
    | succ fa =>
      cases f2 with
      | zero => omega
      | succ fb =>
        by_cases h10 : n < 10
        · simp [natStrAux, h10]
        · have hdiv : n / 10 < n := Nat.div_lt_self (by omega) (by omega)
          simp only [natStrAux, if_neg h10]
          rw [ih (n / 10) hdiv fa fb (by omega) (by omega)]

theorem natStr_eq_aux (fuel n : Nat) (h : n < fuel) :
    natStr n = natStrAux fuel n :=
  natStrAux_fuel n (n + 1) fuel (Nat.lt_succ_self n) h

theorem natStr_lt10 (n : Nat) (h : n < 10) :
    natStr n = String.mk [Nat.digitChar n] := by
  simp [natStr, natStrAux, h]

theorem natStr_ge10 (n : Nat) (h : 10 ≤ n) :
    natStr n = natStr (n / 10) ++ String.mk [Nat.digitChar (n % 10)] := by
  have hdiv : n / 10 < n := Nat.div_lt_self (by omega) (by omega)
  have h1 : natStr n = natStrAux (n + 1) n := rfl
  rw [h1]
  simp only [natStrAux, if_neg (by omega : ¬ n < 10)]
  rw [← natStr_eq_aux n (n / 10) hdiv]

theorem length_mk_single (c : Char) : (String.mk [c]).length = 1 := rfl

theorem natStr_length_le (k : Nat) : ∀ n, 0 < k → n < 10 ^ k →
    (natStr n).length ≤ k := by
  induction k with
  | zero => intro n h; omega
  | succ k ih =>
    intro n _ hn
    by_cases h10 : n < 10
    · rw [natStr_lt10 n h10, length_mk_single]
      omega
    · have hk : 0 < k := by
        rcases Nat.eq_zero_or_pos k with hk0 | hk0
        · subst hk0; simp at hn; omega
        · exact hk0
      have hdiv : n / 10 < 10 ^ k := by
        rw [Nat.div_lt_iff_lt_mul (by omega : 0 < 10)]
        calc n < 10 ^ (k + 1) := hn
        _ = 10 ^ k * 10 := pow_succ 10 k
      rw [natStr_ge10 n (by omega), String.length_append, length_mk_single]
      have := ih (n / 10) hk hdiv
      omega

theorem natStr_length_pos (n : Nat) : 0 < (natStr n).length := by
  by_cases h10 : n < 10
  · rw [natStr_lt10 n h10, length_mk_single]; omega
  · rw [natStr_ge10 n (by omega), String.length_append, length_mk_single]
    omega

theorem natStr_length_one (n : Nat) (h : n < 10) : (natStr n).length = 1 := by
  rw [natStr_lt10 n h, length_mk_single]

theorem natStr_length_two (n : Nat) (h10 : 10 ≤ n) (h100 : n < 100) :
    (natStr n).length = 2 := by
  have hle : (natStr n).length ≤ 2 :=
    natStr_length_le 2 n (by omega) (by omega)
  have hpos := natStr_length_pos (n / 10)
  rw [natStr_ge10 n h10, String.length_append, length_mk_single] at hle ⊢
  omega

theorem digitChar_digit (n : Nat) (h : n < 10) :
    isDigitChar (Nat.digitChar n) = true := by
  interval_cases n <;> decide

theorem isDigitStr_append (a b : String) :
    isDigitStr (a ++ b) = (isDigitStr a && isDigitStr b) := by
  simp [isDigitStr, String.data_append, List.all_append]

theorem natStr_digits (n : Nat) : isDigitStr (natStr n) = true := by
  induction n using Nat.strong_induction_on with
  | _ n ih =>
    by_cases h10 : n < 10
    · rw [natStr_lt10 n h10]
      simp [isDigitStr, digitChar_digit n h10]
    · have hdiv : n / 10 < n := Nat.div_lt_self (by omega) (by omega)
      rw [natStr_ge10 n (by omega), isDigitStr_append, ih (n / 10) hdiv]
      simp [isDigitStr, digitChar_digit (n % 10) (Nat.mod_lt n (by omega))]

theorem zeroPad_length (w : Nat) (s : String) (h : s.length ≤ w) :
    (zeroPad w s).length = w := by
  unfold zeroPad
  rw [String.length_append, String.mk_length, List.length_replicate]
  omega

theorem zeroPad_digits (w : Nat) (s : String) (h : isDigitStr s = true) :
    isDigitStr (zeroPad w s) = true := by
  unfold zeroPad
  rw [isDigitStr_append, h, Bool.and_true]
  simp only [isDigitStr, String.mk, List.all_eq_true]
  intro c hc
  rw [List.eq_of_mem_replicate hc]
  decide

/-! Claim theorems. -/

/-- C1: when the worker executes an EmitTrace command (on a registered
group) the line is formatted and written exactly when the global trace
gate and the group's enabled flag are both true, and the command is
silently dropped (state returned unchanged) otherwise; an EmitInfo
command is written exactly when the group's enabled flag is true, with
the global trace gate playing no role. -/
theorem severity_gating (s : TraceState) (g : Int) (gd : GroupData)
    (t : GoTime) (msg : String) (hg : listGetI s.groups g = some gd) :
    Command.exec (Command.emitTrace g t msg) s =
      (if s.traceEnabled && gd.enabled then some (writeState s gd g t msg)
       else some s) ∧
    Command.exec (Command.emitInfo g t msg) s =
      (if gd.enabled then some (writeState s gd g t msg) else some s) := by
  constructor
  · cases htr : s.traceEnabled
    · simp [Command.exec, htr]
    · cases hen : gd.enabled
      · simp [Command.exec, htr, hg, hen]
      · simp [Command.exec, htr, hg, hen, printLog_eq s g gd t msg hg]
  · cases hen : gd.enabled
    · simp [Command.exec, hg, hen]
    · simp [Command.exec, hg, hen, printLog_eq s g gd t msg hg]

/-- Witness for severity_gating: the default group of the initial state. -/
theorem severity_gating_witness :
    Command.exec (Command.emitTrace 0 ⟨1999, 1, 2, 3, 4, 5, 6⟩ "m") initState =
      (if initState.traceEnabled && GroupData.enabled ⟨"", stdoutSink, true⟩ then
        some (writeState initState ⟨"", stdoutSink, true⟩ 0 ⟨1999, 1, 2, 3, 4, 5, 6⟩ "m")
       else some initState) ∧
    Command.exec (Command.emitInfo 0 ⟨1999, 1, 2, 3, 4, 5, 6⟩ "m") initState =
      (if GroupData.enabled ⟨"", stdoutSink, true⟩ then
        some (writeState initState ⟨"", stdoutSink, true⟩ 0 ⟨1999, 1, 2, 3, 4, 5, 6⟩ "m")
       else some initState) :=
  severity_gating initState 0 ⟨"", stdoutSink, true⟩ ⟨1999, 1, 2, 3, 4, 5, 6⟩ "m"
    (by decide)

/-- C2: draining executes every command enqueued before the drain, in FIFO
order, before returning: for any decomposition of the queue around a
command `c`, `Done` runs the commands before `c`, then `c` itself on the
state they produced, then the commands after it, and returns with the
queue emptied. Nothing enqueued before the drain is skipped. -/
theorem drain_completeness (st : TraceState) (q1 : List Command) (c : Command)
    (q2 : List Command) :
    Done ⟨st, q1 ++ c :: q2⟩ =
      match runWorker q1 st with
      | none => none
      | some s1 =>
        match Command.exec c s1 with
        | none => none
        | some s2 =>
          match runWorker q2 s2 with
          | none => none
          | some s3 => some ⟨s3, []⟩ := by
  show (match runWorker (q1 ++ c :: q2) st with
        | none => none
        | some st1 => some (⟨st1, []⟩ : SysState)) = _
  rw [runWorker_append]
  cases runWorker q1 st with
  | none => rfl
  | some s1 =>
    show (match runWorker (c :: q2) s1 with
          | none => none
          | some st1 => some (⟨st1, []⟩ : SysState)) = _
    simp only [runWorker]
    cases Command.exec c s1 with
    | none => rfl
    | some s2 => rfl

/-- C4: registering a name that duplicates any registered group's name
(the default group's empty name included) panics, leaving the registry as
it was: from that same registry a registration with a fresh name still
succeeds, appends the new group, and returns the next index. -/
theorem register_duplicate_fatal (s : TraceState) (name name2 : String)
    (out out2 : Nat) (b b2 : Bool)
    (hdup : (s.groups.any fun g => name == g.name) = true)
    (hfresh : (s.groups.any fun g => name2 == g.name) = false)
    (hne : 0 < s.groups.length) :
    RegisterGroup s name out b = none ∧
    RegisterGroup s name2 out2 b2 =
      some (⟨s.groups ++ [⟨name2, out2, b2⟩], s.traceEnabled, s.writes⟩,
            s.groups.length) := by
  constructor
  · simp [RegisterGroup, hdup]
  · simp only [RegisterGroup, hfresh]
    rw [if_neg (by simp [hfresh]), if_neg (by omega : ¬ s.groups.length = 0)]
    simp

/-- Witness for register_duplicate_fatal: re-registering the empty name on
the initial registry fails; registering "audit" afterwards still works and
gets index 1. -/
theorem register_duplicate_fatal_witness :
    RegisterGroup initState "" 7 true = none ∧
    RegisterGroup initState "audit" 7 false =
      some (⟨initState.groups ++ [⟨"audit", 7, false⟩], initState.traceEnabled,
             initState.writes⟩,
            initState.groups.length) :=
  register_duplicate_fatal initState "" "audit" 7 7 true false (by decide)
    (by decide) (by decide)

/-- C5: a written line is "<ts> <text>\n" for the default group and
"<ts> [<name>] <text>\n" for a named group, where the timestamp follows
the fixed layout YYYY-M-D HH:MM:SS.ffffff: 4-digit year, unpadded month
and day (one digit below 10, two digits otherwise), zero-padded two-digit
hour, minute and second, and exactly six fractional digits, every
component consisting of decimal digit characters. -/
theorem formatted_line_shape (s : TraceState) (g : Int) (gd : GroupData)
    (t : GoTime) (msg : String) (hg : listGetI s.groups g = some gd)
    (hy : t.year < 10000) (hmo : t.month < 100) (hd : t.day < 100)
    (hh : t.hour < 100) (hmi : t.minute < 100) (hs : t.second < 100)
    (hmic : t.micro < 1000000) :
    printLog s g t msg = some (writeState s gd g t msg) ∧
    formatLine gd g t msg =
      (if g = 0 then formatTime t ++ " " ++ msg ++ "\n"
       else formatTime t ++ " [" ++ gd.name ++ "] " ++ msg ++ "\n") ∧
    formatTime t =
      zeroPad 4 (natStr t.year) ++ "-" ++ natStr t.month ++ "-" ++
      natStr t.day ++ " " ++ zeroPad 2 (natStr t.hour) ++ ":" ++
      zeroPad 2 (natStr t.minute) ++ ":" ++ zeroPad 2 (natStr t.second) ++
      "." ++ zeroPad 6 (natStr t.micro) ∧
    (zeroPad 4 (natStr t.year)).length = 4 ∧
    (natStr t.month).length = (if t.month < 10 then 1 else 2) ∧
    (natStr t.day).length = (if t.day < 10 then 1 else 2) ∧
    (zeroPad 2 (natStr t.hour)).length = 2 ∧
    (zeroPad 2 (natStr t.minute)).length = 2 ∧
    (zeroPad 2 (natStr t.second)).length = 2 ∧
    (zeroPad 6 (natStr t.micro)).length = 6 ∧
    isDigitStr (zeroPad 6 (natStr t.micro)) = true ∧
    isDigitStr (zeroPad 4 (natStr t.year)) = true ∧
    isDigitStr (natStr t.month) = true ∧
    isDigitStr (natStr t.day) = true ∧
    isDigitStr (zeroPad 2 (natStr t.hour)) = true ∧
    isDigitStr (zeroPad 2 (natStr t.minute)) = true ∧
    isDigitStr (zeroPad 2 (natStr t.second)) = true := by
  refine ⟨printLog_eq s g gd t msg hg, rfl, rfl, ?_, ?_, ?_, ?_, ?_, ?_, ?_,
          ?_, ?_, ?_, ?_, ?_, ?_, ?_⟩
  · exact zeroPad_length 4 _ (natStr_length_le 4 t.year (by omega) (by omega))
  · by_cases h10 : t.month < 10
    · rw [if_pos h10]; exact natStr_length_one t.month h10
    · rw [if_neg h10]; exact natStr_length_two t.month (by omega) hmo
  · by_cases h10 : t.day < 10
    · rw [if_pos h10]; exact natStr_length_one t.day h10
    · rw [if_neg h10]; exact natStr_length_two t.day (by omega) hd
  · exact zeroPad_length 2 _ (natStr_length_le 2 t.hour (by omega) (by omega))
  · exact zeroPad_length 2 _ (natStr_length_le 2 t.minute (by omega) (by omega))
  · exact zeroPad_length 2 _ (natStr_length_le 2 t.second (by omega) (by omega))
  · exact zeroPad_length 6 _ (natStr_length_le 6 t.micro (by omega) (by omega))
  · exact zeroPad_digits 6 _ (natStr_digits t.micro)
  · exact zeroPad_digits 4 _ (natStr_digits t.year)
  · exact natStr_digits t.month
  · exact natStr_digits t.day
  · exact zeroPad_digits 2 _ (natStr_digits t.hour)
  · exact zeroPad_digits 2 _ (natStr_digits t.minute)
  · exact zeroPad_digits 2 _ (natStr_digits t.second)

/-- Witness for formatted_line_shape: the default group of the initial
state at the time 1999-01-02 03:04:05.000006 UTC. -/
theorem formatted_line_shape_witness :
    printLog initState 0 ⟨1999, 1, 2, 3, 4, 5, 6⟩ "hello" =
      some (writeState initState ⟨"", stdoutSink, true⟩ 0
              ⟨1999, 1, 2, 3, 4, 5, 6⟩ "hello") ∧
    formatLine ⟨"", stdoutSink, true⟩ 0 ⟨1999, 1, 2, 3, 4, 5, 6⟩ "hello" =
      (if (0 : Int) = 0 then
        formatTime ⟨1999, 1, 2, 3, 4, 5, 6⟩ ++ " " ++ "hello" ++ "\n"
       else
        formatTime ⟨1999, 1, 2, 3, 4, 5, 6⟩ ++ " [" ++ "" ++ "] " ++
          "hello" ++ "\n") ∧
    formatTime ⟨1999, 1, 2, 3, 4, 5, 6⟩ =
      zeroPad 4 (natStr 1999) ++ "-" ++ natStr 1 ++ "-" ++ natStr 2 ++ " " ++
      zeroPad 2 (natStr 3) ++ ":" ++ zeroPad 2 (natStr 4) ++ ":" ++
      zeroPad 2 (natStr 5) ++ "." ++ zeroPad 6 (natStr 6) ∧
    (zeroPad 4 (natStr 1999)).length = 4 ∧
    (natStr 1).length = (if (1 : Nat) < 10 then 1 else 2) ∧
    (natStr 2).length = (if (2 : Nat) < 10 then 1 else 2) ∧
    (zeroPad 2 (natStr 3)).length = 2 ∧
    (zeroPad 2 (natStr 4)).length = 2 ∧
    (zeroPad 2 (natStr 5)).length = 2 ∧
    (zeroPad 6 (natStr 6)).length = 6 ∧
    isDigitStr (zeroPad 6 (natStr 6)) = true ∧
    isDigitStr (zeroPad 4 (natStr 1999)) = true ∧
    isDigitStr (natStr 1) = true ∧
    isDigitStr (natStr 2) = true ∧
    isDigitStr (zeroPad 2 (natStr 3)) = true ∧
    isDigitStr (zeroPad 2 (natStr 4)) = true ∧
    isDigitStr (zeroPad 2 (natStr 5)) = true :=
  formatted_line_shape initState 0 ⟨"", stdoutSink, true⟩
    ⟨1999, 1, 2, 3, 4, 5, 6⟩ "hello" (by decide) (by decide) (by decide)
    (by decide) (by decide) (by decide) (by decide) (by decide)

/-- C6 counterexample: a line the code actually writes for the default
group carries no opening bracket at all, so it does not have the claimed
form TIMESTAMP [ MESSAGE with a bracket between timestamp and message. -/
theorem wire_format_counterexample :
    printLog initState 0 ⟨1999, 1, 2, 3, 4, 5, 6⟩ "hello" =
      some ⟨initState.groups, initState.traceEnabled,
            [(stdoutSink, "1999-1-2 03:04:05.000006 hello\n")]⟩ ∧
    ("1999-1-2 03:04:05.000006 hello\n".data.contains '[') = false ∧
    "1999-1-2 03:04:05.000006 hello\n" ≠
      "1999-1-2 03:04:05.000006" ++ " [ " ++ "hello" ++ "\n" :=
  ⟨by decide, by decide, by decide⟩

/-- C6 amended: default-group lines have the form TIMESTAMP MESSAGE
followed by a newline, with no bracket; named-group lines have the form
TIMESTAMP [GROUPNAME] MESSAGE followed by a newline. -/
theorem wire_line_format (s : TraceState) (g : Int) (gd : GroupData)
    (t : GoTime) (msg : String) (hg : listGetI s.groups g = some gd) :
    printLog s g t msg = some (writeState s gd g t msg) ∧
    formatLine gd g t msg =
      (if g = 0 then formatTime t ++ " " ++ msg ++ "\n"
       else formatTime t ++ " [" ++ gd.name ++ "] " ++ msg ++ "\n") :=
  ⟨printLog_eq s g gd t msg hg, rfl⟩

/-- Witness for wire_line_format: a named group at index 1. -/
theorem wire_line_format_witness :
    printLog ⟨[⟨"", stdoutSink, true⟩, ⟨"audit", 3, true⟩], false, []⟩ 1
        ⟨1999, 1, 2, 3, 4, 5, 6⟩ "hi" =
      some (writeState ⟨[⟨"", stdoutSink, true⟩, ⟨"audit", 3, true⟩], false, []⟩
              ⟨"audit", 3, true⟩ 1 ⟨1999, 1, 2, 3, 4, 5, 6⟩ "hi") ∧
    formatLine ⟨"audit", 3, true⟩ 1 ⟨1999, 1, 2, 3, 4, 5, 6⟩ "hi" =
      (if (1 : Int) = 0 then
        formatTime ⟨1999, 1, 2, 3, 4, 5, 6⟩ ++ " " ++ "hi" ++ "\n"
       else
        formatTime ⟨1999, 1, 2, 3, 4, 5, 6⟩ ++ " [" ++ "audit" ++ "] " ++
          "hi" ++ "\n") :=
  wire_line_format ⟨[⟨"", stdoutSink, true⟩, ⟨"audit", 3, true⟩], false, []⟩ 1
    ⟨"audit", 3, true⟩ ⟨1999, 1, 2, 3, 4, 5, 6⟩ "hi" (by decide)

/-- C7 counterexample: RegisterGroup called at a producer call-site
changes the registry (the single default group becomes two groups) while
leaving the command queue empty: the registration mutated shared state
directly instead of enqueuing a command. -/
theorem producer_mutation_counterexample :
    RegisterGroupSys ⟨initState, []⟩ "audit" 1 true =
      some (⟨⟨[⟨"", stdoutSink, true⟩, ⟨"audit", 1, true⟩], false, []⟩, []⟩, 1) ∧
    (⟨[⟨"", stdoutSink, true⟩, ⟨"audit", 1, true⟩], false, []⟩ : TraceState) ≠
      initState :=
  ⟨by decide, by decide⟩

/-- C7 amended: the log-call family, EnableGroup and EnableTrace only
enqueue commands, leaving the registry, the trace gate and the write
record untouched; RegisterGroup and SetDefaultOutput, by contrast, mutate
the registry directly from the caller and enqueue nothing. -/
theorem producer_mutation_discipline (sys sys1 : SysState) (id : Nat)
    (g : Int) (b : Bool) (t : GoTime) (l : Level) (format : String)
    (a : List GoValue) (name : String) (out : Nat)
    (hreg : RegisterGroupSys sys name out b = some (sys1, id)) :
    EnableGroup sys g b = ⟨sys.st, sys.queue ++ [Command.setGroupEnabled g b]⟩ ∧
    EnableTrace sys b = ⟨sys.st, sys.queue ++ [Command.setTraceEnabled b]⟩ ∧
    log sys t g l format a =
      ⟨sys.st, sys.queue ++ [mkCmd g l t (mkMsg format a)]⟩ ∧
    sys1.queue = sys.queue ∧
    SetDefaultOutputSys sys out = ⟨SetDefaultOutput sys.st out, sys.queue⟩ := by
  refine ⟨rfl, rfl, rfl, ?_, rfl⟩
  revert hreg
  unfold RegisterGroupSys
  cases RegisterGroup sys.st name out b with
  | none => intro h; cases h
  | some p =>
    cases p with
    | mk st1 id1 =>
      intro h
      cases h
      rfl

/-- Witness for producer_mutation_discipline at the initial state. -/
theorem producer_mutation_discipline_witness :
    EnableGroup ⟨initState, []⟩ 0 true =
      ⟨initState, [] ++ [Command.setGroupEnabled 0 true]⟩ ∧
    EnableTrace ⟨initState, []⟩ true =
      ⟨initState, [] ++ [Command.setTraceEnabled true]⟩ ∧
    log ⟨initState, []⟩ ⟨1999, 1, 2, 3, 4, 5, 6⟩ 0 Level.info "" [] =
      ⟨initState,
       [] ++ [mkCmd 0 Level.info ⟨1999, 1, 2, 3, 4, 5, 6⟩ (mkMsg "" [])]⟩ ∧
    SysState.queue
        ⟨⟨[⟨"", stdoutSink, true⟩, ⟨"audit", 7, true⟩], false, []⟩, []⟩ = [] ∧
    SetDefaultOutputSys ⟨initState, []⟩ 7 =
      ⟨SetDefaultOutput initState 7, []⟩ :=
  producer_mutation_discipline ⟨initState, []⟩
    ⟨⟨[⟨"", stdoutSink, true⟩, ⟨"audit", 7, true⟩], false, []⟩, []⟩ 1 0 true
    ⟨1999, 1, 2, 3, 4, 5, 6⟩ Level.info "" [] "audit" 7 (by decide)

/-- C8: when the default group exists, SetDefaultOutput replaces only its
output sink, keeping its empty name and current enabled flag, and leaves
every other group, the trace gate and the write record unchanged. -/
theorem set_default_output_frame (s : TraceState) (g0 : GroupData)
    (rest : List GroupData) (out : Nat) (h : s.groups = g0 :: rest) :
    SetDefaultOutput s out =
      ⟨⟨"", out, g0.enabled⟩ :: rest, s.traceEnabled, s.writes⟩ := by
  unfold SetDefaultOutput
  rw [h]

/-- Witness for set_default_output_frame: a registry with a disabled
default group and one named group. -/
theorem set_default_output_frame_witness :
    SetDefaultOutput ⟨[⟨"", stdoutSink, false⟩, ⟨"audit", 3, true⟩], true, []⟩ 9 =
      ⟨⟨"", 9, GroupData.enabled ⟨"", stdoutSink, false⟩⟩ :: [⟨"audit", 3, true⟩],
       true, []⟩ :=
  set_default_output_frame
    ⟨[⟨"", stdoutSink, false⟩, ⟨"audit", 3, true⟩], true, []⟩
    ⟨"", stdoutSink, false⟩ [⟨"audit", 3, true⟩] 9 rfl

/-- C9 counterexample: with the global trace gate off (its default), an
EmitTrace command whose group index 5 is out of range for the one-group
registry is executed without any panic: Go's short-circuit conjunction
never indexes the registry, and the command is silently dropped. -/
theorem out_of_range_counterexample :
    listGetI initState.groups 5 = none ∧
    Command.exec (Command.emitTrace 5 ⟨1999, 1, 2, 3, 4, 5, 6⟩ "x") initState =
      some initState :=
  ⟨by decide, by decide⟩

/-- C9 amended: the public API does not validate group indices (log and
EnableGroup enqueue a command for any index), and the worker's execution
of a command whose index is negative or not less than the registry size
panics on the unguarded registry access — for EmitInfo and
SetGroupEnabled always, and for EmitTrace exactly when the global trace
gate is on; when the gate is off the trace command is silently dropped
without touching the registry. -/
theorem out_of_range_behavior (st : TraceState) (g : Int) (t : GoTime)
    (msg : String) (b : Bool) (sys : SysState) (l : Level) (format : String)
    (a : List GoValue)
    (hbad : g < 0 ∨ (st.groups.length : Int) ≤ g) :
    Command.exec (Command.emitInfo g t msg) st = none ∧
    Command.exec (Command.setGroupEnabled g b) st = none ∧
    Command.exec (Command.emitTrace g t msg) st =
      (if st.traceEnabled then none else some st) ∧
    log sys t g l format a =
      ⟨sys.st, sys.queue ++ [mkCmd g l t (mkMsg format a)]⟩ ∧
    EnableGroup sys g b = ⟨sys.st, sys.queue ++ [Command.setGroupEnabled g b]⟩ := by
  have hnone : listGetI st.groups g = none := listGetI_none st.groups g hbad
  refine ⟨?_, ?_, ?_, rfl, rfl⟩
  · simp [Command.exec, hnone]
  · simp [Command.exec, hnone]
  · cases htr : st.traceEnabled
    · simp [Command.exec, htr]
    · simp [Command.exec, htr, hnone]

/-- Witness for out_of_range_behavior: index 5 against the one-group
initial registry, with the trace gate left at its default. -/
theorem out_of_range_behavior_witness :
    Command.exec (Command.emitInfo 5 ⟨1999, 1, 2, 3, 4, 5, 6⟩ "x") initState =
      none ∧
    Command.exec (Command.setGroupEnabled 5 true) initState = none ∧
    Command.exec (Command.emitTrace 5 ⟨1999, 1, 2, 3, 4, 5, 6⟩ "x") initState =
      (if initState.traceEnabled then none else some initState) ∧
    log ⟨initState, []⟩ ⟨1999, 1, 2, 3, 4, 5, 6⟩ 5 Level.info "" [] =
      ⟨initState,
       [] ++ [mkCmd 5 Level.info ⟨1999, 1, 2, 3, 4, 5, 6⟩ (mkMsg "" [])]⟩ ∧
    EnableGroup ⟨initState, []⟩ 5 true =
      ⟨initState, [] ++ [Command.setGroupEnabled 5 true]⟩ :=
  out_of_range_behavior initState 5 ⟨1999, 1, 2, 3, 4, 5, 6⟩ "x" true
    ⟨initState, []⟩ Level.info "" [] (by decide)

/-- C10: with an empty template, the message text is the Sprint-style
concatenation of the arguments' default representations, so each
template-taking call with an empty template is the same system operation
as the corresponding no-template call; a printf substitution against the
empty template would instead discard the arguments entirely. -/
theorem empty_template_fallback (sys : SysState) (t : GoTime) (g : Int)
    (a : List GoValue) :
    mkMsg "" a = goSprint a ∧
    Infof sys t "" a = Info sys t a ∧
    Tracef sys t "" a = Trace sys t a ∧
    Infogf sys t g "" a = Infog sys t g a ∧
    Tracegf sys t g "" a = Traceg sys t g a ∧
    goSprint [GoValue.int 3, GoValue.int 4] = "3 4" ∧
    goSprintf "" [GoValue.int 3, GoValue.int 4] = "" ∧
    mkMsg "" [GoValue.int 3, GoValue.int 4] = "3 4" :=
  ⟨rfl, rfl, rfl, rfl, rfl, by decide, rfl, by decide⟩

theorem issueCalls_spec (g : Int) :
    ∀ (calls : List LogCall) (sys : SysState),
      issueCalls g calls sys =
        ⟨sys.st, sys.queue ++ calls.map (LogCall.toCmd g)⟩ := by
  intro calls
  induction calls with
  | nil => intro sys; simp [issueCalls]
  | cons c cs ih =>
    intro sys
    simp only [issueCalls, ih, log, List.map_cons]
    simp [LogCall.toCmd, List.append_assoc]

theorem runWorker_all_enabled (g : Int) (gd : GroupData)
    (hen : gd.enabled = true) :
    ∀ (calls : List LogCall) (s : TraceState),
      listGetI s.groups g = some gd → s.traceEnabled = true →
      runWorker (calls.map (LogCall.toCmd g)) s =
        some ⟨s.groups, s.traceEnabled,
              s.writes ++ calls.map
                (fun c => (gd.output, formatLine gd g c.t (mkMsg c.fmt c.args)))⟩ := by
  intro calls
  induction calls with
  | nil => intro s _ _; simp [runWorker]
  | cons c cs ih =>
    intro s hg htr
    have hstep : Command.exec (LogCall.toCmd g c) s =
        some (writeState s gd g c.t (mkMsg c.fmt c.args)) := by
      cases hl : c.lvl
      · simp [LogCall.toCmd, mkCmd, hl, Command.exec, htr, hg, hen,
              printLog_eq s g gd c.t (mkMsg c.fmt c.args) hg]
      · simp [LogCall.toCmd, mkCmd, hl, Command.exec, hg, hen,
              printLog_eq s g gd c.t (mkMsg c.fmt c.args) hg]
    simp only [List.map_cons, runWorker, hstep]
    rw [ih (writeState s gd g c.t (mkMsg c.fmt c.args)) hg htr]
    simp [writeState]

theorem sinkLines_append_own (gs : List GroupData) (bb : Bool)
    (ws : List (Nat × String)) (gd : GroupData) (g : Int)
    (calls : List LogCall) :
    sinkLines ⟨gs, bb, ws ++ calls.map
        (fun c => (gd.output, formatLine gd g c.t (mkMsg c.fmt c.args)))⟩
        gd.output =
      sinkLines ⟨gs, bb, ws⟩ gd.output ++
        calls.map (fun c => formatLine gd g c.t (mkMsg c.fmt c.args)) := by
  simp only [sinkLines, List.filter_append, List.map_append]
  congr 1
  induction calls with
  | nil => rfl
  | cons x xs ih => simp [ih]

/-- C3: for a sequence of log calls issued (in order) to a group that is
enabled, with the global trace gate on, draining yields exactly one
formatted line per call on that group's sink, appended in call order: the
worker consumed the queue in FIFO order and performed the writes
sequentially. -/
theorem order_preservation (st : TraceState) (g : Int) (gd : GroupData)
    (calls : List LogCall) (hg : listGetI st.groups g = some gd)
    (hen : gd.enabled = true) (htr : st.traceEnabled = true) :
    Done (issueCalls g calls ⟨st, []⟩) =
      some ⟨⟨st.groups, st.traceEnabled,
             st.writes ++ calls.map
               (fun c => (gd.output, formatLine gd g c.t (mkMsg c.fmt c.args)))⟩,
            []⟩ ∧
    sinkLines ⟨st.groups, st.traceEnabled,
               st.writes ++ calls.map
                 (fun c => (gd.output, formatLine gd g c.t (mkMsg c.fmt c.args)))⟩
        gd.output =
      sinkLines st gd.output ++
        calls.map (fun c => formatLine gd g c.t (mkMsg c.fmt c.args)) := by
  constructor
  · rw [issueCalls_spec g calls ⟨st, []⟩]
    simp only [Done, List.nil_append]
    rw [runWorker_all_enabled g gd hen calls st hg htr]
  · exact sinkLines_append_own st.groups st.traceEnabled st.writes gd g calls

/-- Witness for order_preservation: two calls (one trace, one info) to the
default group with the gate on. -/
theorem order_preservation_witness :
    Done (issueCalls 0
        ([⟨Level.trace, ⟨1999, 1, 2, 3, 4, 5, 6⟩, "", [GoValue.str "a"]⟩,
          ⟨Level.info, ⟨1999, 1, 2, 3, 4, 5, 7⟩, "", [GoValue.str "b"]⟩] :
          List LogCall)
        ⟨⟨[⟨"", stdoutSink, true⟩], true, []⟩, []⟩) =
      some ⟨⟨[⟨"", stdoutSink, true⟩], true,
             [] ++ ([⟨Level.trace, ⟨1999, 1, 2, 3, 4, 5, 6⟩, "", [GoValue.str "a"]⟩,
                     ⟨Level.info, ⟨1999, 1, 2, 3, 4, 5, 7⟩, "", [GoValue.str "b"]⟩] :
                     List LogCall).map
               (fun c => (GroupData.output ⟨"", stdoutSink, true⟩,
                          formatLine ⟨"", stdoutSink, true⟩ 0 c.t
                            (mkMsg c.fmt c.args)))⟩,
            []⟩ ∧
    sinkLines ⟨[⟨"", stdoutSink, true⟩], true,
               [] ++ ([⟨Level.trace, ⟨1999, 1, 2, 3, 4, 5, 6⟩, "", [GoValue.str "a"]⟩,
                       ⟨Level.info, ⟨1999, 1, 2, 3, 4, 5, 7⟩, "", [GoValue.str "b"]⟩] :
                       List LogCall).map
                 (fun c => (GroupData.output ⟨"", stdoutSink, true⟩,
                            formatLine ⟨"", stdoutSink, true⟩ 0 c.t
                              (mkMsg c.fmt c.args)))⟩
        (GroupData.output ⟨"", stdoutSink, true⟩) =
      sinkLines ⟨[⟨"", stdoutSink, true⟩], true, []⟩
          (GroupData.output ⟨"", stdoutSink, true⟩) ++
        ([⟨Level.trace, ⟨1999, 1, 2, 3, 4, 5, 6⟩, "", [GoValue.str "a"]⟩,
          ⟨Level.info, ⟨1999, 1, 2, 3, 4, 5, 7⟩, "", [GoValue.str "b"]⟩] :
          List LogCall).map
          (fun c => formatLine ⟨"", stdoutSink, true⟩ 0 c.t (mkMsg c.fmt c.args)) :=
  order_preservation ⟨[⟨"", stdoutSink, true⟩], true, []⟩ 0
    ⟨"", stdoutSink, true⟩
    ([⟨Level.trace, ⟨1999, 1, 2, 3, 4, 5, 6⟩, "", [GoValue.str "a"]⟩,
      ⟨Level.info, ⟨1999, 1, 2, 3, 4, 5, 7⟩, "", [GoValue.str "b"]⟩] :
      List LogCall)
    (by decide) (by decide) (by decide)

end TraceSpec
